import Mathlib

/-!
Verification of the resilient Gather.Town API client and its helpers
(`src/gather_api_client.js`, `src/fc_guest_manager.js`).

The JavaScript code is shallowly embedded: the `fetch` transport is
abstracted by a list of per-attempt outcomes (one entry per HTTP attempt),
promises become plain values, thrown errors become `Except`-style results,
and the mutable `this.usage` map of the rate limiter becomes explicit state
passing.  Machine integers do not occur: every number in the source is a
small non-negative count or a millisecond timestamp, modelled as `Nat`.
-/

/-- Decoded JSON response body, as far as `makeRequest` inspects it:
`responseData.message` (used for the `APIError` message, line 46) plus the
rest of the body treated as opaque text. -/
structure ResponseBody where
  message : Option String
  payload : String
deriving Repr, DecidableEq

/-- JavaScript `a || b` for a possibly-undefined string `a`
(`undefined` and `""` are falsy). -/
def jsOr (a : Option String) (d : String) : String :=
  match a with
  | none => d
  | some s => if s = "" then d else s

/-- A guest configuration argument to `addGuest`: the code distinguishes
arrays from single values with `Array.isArray` (line 103).  Individual
guest configs are opaque payloads. -/
inductive GuestValue
| single (g : String)
| array (gs : List String)
deriving Repr, DecidableEq

/-- The error taxonomy of `src/gather_api_client.js` lines 177-205, plus the
two error shapes produced by the transport itself: a network-level failure
(`fetch` rejects, no HTTP response) and a JSON-decoding failure
(`response.json()` rejects).  Neither of the latter two carries a `status`
property in JavaScript. -/
inductive APIErr
| api (status : Nat) (message : String)
| validation (message : String) (data : GuestValue)
| permission (message : String)
| conflict (message : String)
| network (message : String)
| jsonError (message : String)
deriving Repr, DecidableEq

/-- The JavaScript `error.status` property: `APIError` and its subclasses set
it (`ValidationError` 400, `PermissionError` 403, `ConflictError` 409);
network and JSON-decoding errors do not have it (`undefined`). -/
def statusOf : APIErr → Option Nat
  | .api s _ => some s
  | .validation _ _ => some 400
  | .permission _ => some 403
  | .conflict _ => some 409
  | .network _ => none
  | .jsonError _ => none

/-- `retryCondition` from the constructor (line 15):
`(error) => error.status >= 500 || error.status === 429`.
When `error.status` is `undefined` (network / JSON errors) both JavaScript
comparisons evaluate to `false`, so the condition is `false`. -/
def retryCondition (e : APIErr) : Bool :=
  match statusOf e with
  | some s => decide (500 ≤ s) || (s == 429)
  | none => false

/-- Retry policy fields of `this.retryConfig` (lines 12-16); the
`retryCondition` closure is fixed by the constructor and embedded above. -/
structure RetryConfig where
  maxRetries : Nat
  backoffMs : Nat
deriving Repr, DecidableEq

/-- The constructor's retry policy: `maxRetries: 3, backoffMs: 1000`. -/
def defaultRetryConfig : RetryConfig := ⟨3, 1000⟩

/-- What one iteration of the attempt loop observes from the transport:
either `fetch` rejects (no response), or a response arrives whose body fails
to decode as JSON, or a response arrives with status, decoded body and
status text. -/
inductive AttemptOutcome
| netFail (msg : String)
| badJson (msg : String) (status : Nat)
| resp (status : Nat) (body : ResponseBody) (statusText : String)
deriving Repr, DecidableEq

/-- Lines 42-47 of `makeRequest`: await `fetch`, await `response.json()`,
then `if (!response.ok) throw new APIError(status, responseData.message ||
response.statusText)`, else the decoded body is the result.
(`response.ok` is a status in 200..299.) -/
def attemptResult : AttemptOutcome → Except APIErr ResponseBody
  | .netFail m => .error (.network m)
  | .badJson m _ => .error (.jsonError m)
  | .resp status b st =>
      if 200 ≤ status ∧ status ≤ 299 then .ok b
      else .error (.api status (jsOr b.message st))

/-- Result of a `makeRequest` call: `none` models the (unreachable) fall
through of the loop, otherwise the returned body or thrown error together
with the number of attempts performed and the list of backoff waits (in ms,
in order) inserted between attempts. -/
abbrev CallResult := Option (Except APIErr ResponseBody × Nat × List Nat)

/-- The retry loop of `makeRequest` (lines 38-65): starting at `attempt`,
consume one transport outcome per iteration; on success return the body; on
error rethrow when `attempt === maxRetries` or the error is not retryable,
otherwise wait `backoffMs * 2 ** attempt` and continue. -/
def runAttempts (cfg : RetryConfig) : Nat → List AttemptOutcome → CallResult
  | _, [] => none
  | attempt, o :: rest =>
    match attemptResult o with
    | .ok body => some (.ok body, 1, [])
    | .error e =>
      if attempt == cfg.maxRetries || !retryCondition e then
        some (.error e, 1, [])
      else
        match runAttempts cfg (attempt + 1) rest with
        | none => none
        | some (r, n, ds) => some (r, n + 1, cfg.backoffMs * 2 ^ attempt :: ds)

/-- Client state: `this.apiKey`, `this.baseUrl`, `this.retryConfig`
(lines 10-16).  No other instance fields exist. -/
structure Client where
  apiKey : String
  baseUrl : String
  retryConfig : RetryConfig
deriving Repr, DecidableEq

/-- `undefined` or `""` — the values rejected by `if (!this.apiKey)`. -/
def isFalsyStr : Option String → Bool
  | none => true
  | some s => s == ""

/-- JavaScript `a || b` keeping undefinedness: used for
`apiKey || process.env.GATHER_API_KEY`. -/
def jsOrOpt (a b : Option String) : Option String :=
  match a with
  | none => b
  | some s => if s = "" then b else some s

/-- The `GatherAPIClient` constructor (lines 9-21), with the two environment
variables it reads passed explicitly: `this.apiKey = apiKey ||
process.env.GATHER_API_KEY`, `this.baseUrl = process.env.GATHER_BASE_URL ||
'https://gather.town/api/v2'`, then `if (!this.apiKey) throw new
Error('Gather.Town API key is required')`.  Construction performs no network
call (the type shows it consumes no transport outcomes). -/
def Client.construct (apiKey envKey envBase : Option String) :
    Except String Client :=
  let key := jsOrOpt apiKey envKey
  let base := jsOr envBase "https://gather.town/api/v2"
  if isFalsyStr key then .error "Gather.Town API key is required"
  else .ok ⟨key.getD "", base, defaultRetryConfig⟩

/-- The POST body built by `addGuest` (lines 102-105). -/
structure GuestRequestBody where
  guests : List String
  sendInvitation : Bool
deriving Repr, DecidableEq

/-- Request bodies handed to `makeRequest`: either an opaque
`JSON.stringify`-ed configuration, or the guest payload object literal of
`addGuest`. -/
inductive JsonBody
| raw (s : String)
| guestPayload (b : GuestRequestBody)
deriving Repr, DecidableEq

/-- The `options` argument of `makeRequest` as used by the wrappers. -/
structure RequestOptions where
  method : Option String
  body : Option JsonBody
deriving Repr, DecidableEq

/-- `{ guests: Array.isArray(guestConfig) ? guestConfig : [guestConfig],
sendInvitation: true }` — lines 102-105. -/
def addGuestBody : GuestValue → GuestRequestBody
  | .single g => ⟨[g], true⟩
  | .array gs => ⟨gs, true⟩

/-- The request options `addGuest` passes to `makeRequest` (lines 100-106). -/
def addGuestOptions (gv : GuestValue) : RequestOptions :=
  ⟨some "POST", some (.guestPayload (addGuestBody gv))⟩

/-- The full URL built on line 27: `${this.baseUrl}${endpoint}`. -/
def Client.requestUrl (c : Client) (endpoint : String) : String :=
  c.baseUrl ++ endpoint

/-- `makeRequest` as a method: runs the retry loop with the client's stored
retry policy and returns the (unchanged) client state alongside the result —
no statement in the method body assigns to any `this` field. -/
def Client.makeRequest (c : Client) (endpoint : String)
    (opts : RequestOptions) (outcomes : List AttemptOutcome) :
    CallResult × Client :=
  (runAttempts c.retryConfig 0 outcomes, c)

/-- `createSpace` (lines 71-76): POST `/spaces`. -/
def Client.createSpace (c : Client) (spaceConfig : String)
    (outcomes : List AttemptOutcome) : CallResult × Client :=
  c.makeRequest "/spaces" ⟨some "POST", some (.raw spaceConfig)⟩ outcomes

/-- `getSpace` (lines 81-83): GET `/spaces/{id}`. -/
def Client.getSpace (c : Client) (spaceId : String)
    (outcomes : List AttemptOutcome) : CallResult × Client :=
  c.makeRequest ("/spaces/" ++ spaceId) ⟨none, none⟩ outcomes

/-- `updateSpace` (lines 88-93): PUT `/spaces/{id}`. -/
def Client.updateSpace (c : Client) (spaceId updates : String)
    (outcomes : List AttemptOutcome) : CallResult × Client :=
  c.makeRequest ("/spaces/" ++ spaceId) ⟨some "PUT", some (.raw updates)⟩
    outcomes

/-- The catch block of `addGuest` (lines 107-117): a 400 becomes a
`ValidationError` carrying the guest configuration, a 403 a
`PermissionError`, a 409 a `ConflictError`; anything else is rethrown. -/
def addGuestWrap (gv : GuestValue) :
    Except APIErr ResponseBody → Except APIErr ResponseBody
  | .ok v => .ok v
  | .error e =>
    match statusOf e with
    | some 400 => .error (.validation "Invalid guest configuration" gv)
    | some 403 => .error (.permission "Insufficient permissions to add guests")
    | some 409 => .error (.conflict "Guest already exists in space")
    | _ => .error e

/-- `addGuest` (lines 98-118): POST `/spaces/{id}/guests` with the wrapped
guest payload, re-classifying 400/403/409 failures. -/
def Client.addGuest (c : Client) (spaceId : String) (gv : GuestValue)
    (outcomes : List AttemptOutcome) : CallResult × Client :=
  let r := c.makeRequest ("/spaces/" ++ spaceId ++ "/guests")
    (addGuestOptions gv) outcomes
  (r.1.map (fun t => (addGuestWrap gv t.1, t.2.1, t.2.2)), r.2)

/-- `getGuestList` (lines 123-125): GET `/spaces/{id}/guests`. -/
def Client.getGuestList (c : Client) (spaceId : String)
    (outcomes : List AttemptOutcome) : CallResult × Client :=
  c.makeRequest ("/spaces/" ++ spaceId ++ "/guests") ⟨none, none⟩ outcomes

/-- `updateGuest` (lines 130-135): PUT `/spaces/{id}/guests/{guestId}`. -/
def Client.updateGuest (c : Client) (spaceId guestId updates : String)
    (outcomes : List AttemptOutcome) : CallResult × Client :=
  c.makeRequest ("/spaces/" ++ spaceId ++ "/guests/" ++ guestId)
    ⟨some "PUT", some (.raw updates)⟩ outcomes

/-- `removeGuest` (lines 140-144): DELETE `/spaces/{id}/guests/{guestId}`. -/
def Client.removeGuest (c : Client) (spaceId guestId : String)
    (outcomes : List AttemptOutcome) : CallResult × Client :=
  c.makeRequest ("/spaces/" ++ spaceId ++ "/guests/" ++ guestId)
    ⟨some "DELETE", none⟩ outcomes

/-- `sendInvitation` (lines 149-154): POST `/invitations`. -/
def Client.sendInvitation (c : Client) (invitationConfig : String)
    (outcomes : List AttemptOutcome) : CallResult × Client :=
  c.makeRequest "/invitations" ⟨some "POST", some (.raw invitationConfig)⟩
    outcomes

/-- `createWebhook` (lines 159-164): POST `/webhooks`. -/
def Client.createWebhook (c : Client) (webhookConfig : String)
    (outcomes : List AttemptOutcome) : CallResult × Client :=
  c.makeRequest "/webhooks" ⟨some "POST", some (.raw webhookConfig)⟩ outcomes

/-- A concrete client for counterexamples and witnesses: constructed with an
explicit key, no environment overrides. -/
def defaultClient : Client :=
  ⟨"test-key", "https://gather.town/api/v2", defaultRetryConfig⟩

/-- The tier names of `RateLimitManager.limits` (lines 212-216). -/
inductive Tier
| standard
| premium
| burst
deriving Repr, DecidableEq

/-- A tier's quota: `requests` per `window` seconds. -/
structure TierLimit where
  requests : Nat
  window : Nat
deriving Repr, DecidableEq

/-- `this.limits` (lines 212-216): standard 1000/hour, premium 5000/hour,
burst 100/minute. -/
def limits : Tier → TierLimit
  | .standard => ⟨1000, 3600⟩
  | .premium => ⟨5000, 3600⟩
  | .burst => ⟨100, 60⟩

/-- JavaScript `Map.set(k, true)` on a map whose values are all `true`:
the key list gains `k` at the end unless already present. -/
def mapSet (m : List Nat) (k : Nat) : List Nat :=
  if k ∈ m then m else m ++ [k]

/-- `Math.min(...keys)` for a non-empty key list (the code only evaluates it
when `usage.size >= limit.requests >= 100`); `[]` is never reached there. -/
def listMin : List Nat → Nat
  | [] => 0
  | [t] => t
  | a :: b :: ts => min a (listMin (b :: ts))

/-- Observable effect of one `checkLimit` call (lines 220-242): `err` is
`some waitTime` when a `RateLimitError` is thrown, and `usage` is the
`this.usage` key list after the call — pruning persists even when the call
throws, and the current timestamp is recorded only on success. -/
structure CheckResult where
  err : Option Nat
  usage : List Nat
deriving Repr, DecidableEq

/-- `checkLimit` (lines 220-242): compute `windowStart = now - window*1000`,
delete every recorded timestamp `< windowStart`, then either throw with
`waitTime = oldest + window*1000 - now` when `usage.size >= requests`, or
record `now` and succeed. -/
def checkLimit (usage : List Nat) (tier : Tier) (now : Nat) : CheckResult :=
  let limit := limits tier
  let windowStart := now - limit.window * 1000
  let pruned := usage.filter (fun t => ! decide (t < windowStart))
  if limit.requests ≤ pruned.length then
    ⟨some (listMin pruned + limit.window * 1000 - now), pruned⟩
  else
    ⟨none, mapSet pruned now⟩

/-- A sequence of `checkLimit` calls against one `RateLimitManager`,
one call per timestamp: the per-call outcomes (`none` = success,
`some w` = `RateLimitError` with wait `w`) and the final ledger. -/
def runChecks (tier : Tier) : List Nat → List Nat → List (Option Nat) × List Nat
  | usage, [] => ([], usage)
  | usage, t :: ts =>
    let r := checkLimit usage tier t
    let rest := runChecks tier r.usage ts
    (r.err :: rest.1, rest.2)

/-- `FCGuestManager.chunkArray` (`src/fc_guest_manager.js` lines 404-410):
`for (let i = 0; i < array.length; i += size) chunks.push(array.slice(i,
i + size))`, written as the equivalent recursion peeling `size` elements per
iteration.  For `size = 0` the JavaScript loop never advances (it diverges
on a non-empty array); that unreachable-for-callers case is modelled as no
chunks, and every claim about `chunkArray` assumes a positive size. -/
def chunkArray : List α → Nat → List (List α)
  | [], _ => []
  | _ :: _, 0 => []
  | a :: rest, s + 1 =>
      (a :: rest).take (s + 1) :: chunkArray ((a :: rest).drop (s + 1)) (s + 1)
termination_by l _ => l.length
decreasing_by simp [List.length_drop]; omega

/-- Whether an error value is a `ValidationError` (the `name` check a caller
would perform). -/
def isValidationError : APIErr → Bool
  | .validation _ _ => true
  | _ => false

/-- Whether a transport outcome is an HTTP 500 response (necessarily with a
JSON-decoded body, by the shape of `AttemptOutcome.resp`). -/
def is500 (o : AttemptOutcome) : Bool :=
  match o with
  | .resp s _ _ => s == 500
  | _ => false

/-- The message `makeRequest` derives from a transport outcome. -/
def attemptMessage : AttemptOutcome → String
  | .netFail m => m
  | .badJson m _ => m
  | .resp _ b st => jsOr b.message st

/-- Message of the last attempt of a run. -/
def lastAttemptMessage : List AttemptOutcome → String
  | [] => ""
  | [o] => attemptMessage o
  | _ :: p :: rest => lastAttemptMessage (p :: rest)

/-- C6: for every request whose first attempt yields a 2xx response with a
JSON-decodable body, `makeRequest` returns the decoded body on the first
attempt, performing zero retries and inserting no backoff waits. -/
theorem makeRequest_2xx_first_attempt (c : Client) (e : String)
    (opts : RequestOptions) (s : Nat) (b : ResponseBody) (st : String)
    (rest : List AttemptOutcome) (h1 : 200 ≤ s) (h2 : s ≤ 299) :
    (c.makeRequest e opts (.resp s b st :: rest)).1
      = some (.ok b, 1, []) := by
  simp [Client.makeRequest, runAttempts, attemptResult, h1, h2]

/-- Witness for `makeRequest_2xx_first_attempt` at a concrete 200 response. -/
theorem makeRequest_2xx_first_attempt_check :
    200 ≤ 200 ∧ 200 ≤ 299 ∧
    (defaultClient.makeRequest "/spaces" ⟨none, none⟩
        [.resp 200 ⟨none, "ok"⟩ "OK"]).1
      = some (.ok ⟨none, "ok"⟩, 1, []) :=
  ⟨by decide, by decide,
    makeRequest_2xx_first_attempt defaultClient "/spaces" ⟨none, none⟩
      200 ⟨none, "ok"⟩ "OK" [] (by decide) (by decide)⟩

/-- C7: a 429 response on the first attempt followed by a 200 response on
the retry makes `makeRequest` succeed on the second attempt with the body of
the 200 response, after a single backoff wait of `backoffMs * 2 ^ 0`. -/
theorem makeRequest_429_then_200_second_attempt (c : Client) (e : String)
    (opts : RequestOptions) (b1 : ResponseBody) (st1 : String)
    (b2 : ResponseBody) (st2 : String) (rest : List AttemptOutcome)
    (h : 1 ≤ c.retryConfig.maxRetries) :
    (c.makeRequest e opts
        (.resp 429 b1 st1 :: .resp 200 b2 st2 :: rest)).1
      = some (.ok b2, 2, [c.retryConfig.backoffMs]) := by
  have h0 : (0 == c.retryConfig.maxRetries) = false := by
    simp only [beq_eq_false_iff_ne, ne_eq]
    omega
  simp [Client.makeRequest, runAttempts, attemptResult, retryCondition,
    statusOf, h0]

/-- Witness for `makeRequest_429_then_200_second_attempt` on the default
client (`maxRetries = 3`). -/
theorem makeRequest_429_then_200_second_attempt_check :
    1 ≤ defaultClient.retryConfig.maxRetries ∧
    (defaultClient.makeRequest "/spaces" ⟨none, none⟩
        [.resp 429 ⟨none, ""⟩ "Too Many Requests",
         .resp 200 ⟨none, "ok"⟩ "OK"]).1
      = some (.ok ⟨none, "ok"⟩, 2, [defaultClient.retryConfig.backoffMs]) :=
  ⟨by decide,
    makeRequest_429_then_200_second_attempt defaultClient "/spaces"
      ⟨none, none⟩ ⟨none, ""⟩ "Too Many Requests" ⟨none, "ok"⟩ "OK" []
      (by decide)⟩

/-- C2 counterexample: on a 400 response, `makeRequest` itself fails with a
plain `APIError` of status 400 — not a `ValidationError`, and with no
request payload attached.  (Only `addGuest`'s catch block introduces a
`ValidationError`.) -/
theorem badRequest_plain_api_error_counterexample :
    (defaultClient.makeRequest "/spaces" ⟨some "POST", some (.raw "cfg")⟩
        [.resp 400 ⟨none, ""⟩ "Bad Request"]).1
      = some (.error (.api 400 "Bad Request"), 1, [])
    ∧ isValidationError (.api 400 "Bad Request") = false :=
  ⟨rfl, rfl⟩

/-- C2 amended: a 400 response makes `makeRequest` fail on the first attempt
with a plain `APIError` of status 400 and zero retries; `addGuest`
specifically converts that failure into a `ValidationError` carrying the
guest configuration argument. -/
theorem badRequest_first_attempt_behavior (c : Client) (e : String)
    (opts : RequestOptions) (b : ResponseBody) (st : String)
    (rest : List AttemptOutcome) (spaceId : String) (gv : GuestValue) :
    (c.makeRequest e opts (.resp 400 b st :: rest)).1
      = some (.error (.api 400 (jsOr b.message st)), 1, [])
    ∧ (c.addGuest spaceId gv (.resp 400 b st :: rest)).1
      = some (.error (.validation "Invalid guest configuration" gv), 1, []) := by
  have h1 : runAttempts c.retryConfig 0 (.resp 400 b st :: rest)
      = some (.error (.api 400 (jsOr b.message st)), 1, []) := by
    simp [runAttempts, attemptResult, retryCondition, statusOf]
  refine ⟨h1, ?_⟩
  simp [Client.addGuest, Client.makeRequest, h1, addGuestWrap, statusOf]

/-- C3 counterexample: a network-level failure on the first attempt is
thrown immediately — no retry happens even though a successful 200 response
awaits the second attempt and `maxRetries = 3 > 0` attempts remain. -/
theorem network_failure_not_retried_counterexample :
    (defaultClient.makeRequest "/spaces" ⟨none, none⟩
        [.netFail "ECONNREFUSED", .resp 200 ⟨none, "ok"⟩ "OK"]).1
      = some (.error (.network "ECONNREFUSED"), 1, [])
    ∧ 0 < defaultClient.retryConfig.maxRetries :=
  ⟨rfl, by decide⟩

/-- C3 amended: network-level failures (no HTTP response, hence no `status`
property) are non-retryable in the code: `retryCondition` evaluates to
`false` on them (`undefined >= 500` and `undefined === 429` are both false),
so `makeRequest` throws them on the first attempt regardless of the retry
budget. -/
theorem network_failure_thrown_immediately (c : Client) (e : String)
    (opts : RequestOptions) (msg : String) (rest : List AttemptOutcome) :
    (c.makeRequest e opts (.netFail msg :: rest)).1
      = some (.error (.network msg), 1, [])
    ∧ retryCondition (.network msg) = false := by
  refine ⟨?_, rfl⟩
  simp [Client.makeRequest, runAttempts, attemptResult, retryCondition,
    statusOf]

/-- C4 counterexample: constructing with API key `""` succeeds when the
`GATHER_API_KEY` environment fallback is set — the empty key does not fail
construction unconditionally. -/
theorem empty_key_env_fallback_counterexample :
    Client.construct (some "") (some "env-api-key") none
      = .ok ⟨"env-api-key", "https://gather.town/api/v2",
          defaultRetryConfig⟩ := rfl

/-- C4 amended: when both the explicit API key and the `GATHER_API_KEY`
environment fallback are absent or empty, construction fails with the
configuration error `Gather.Town API key is required`; no network call is
attempted (construction consumes no transport outcomes). -/
theorem construct_fails_without_key (a e b : Option String)
    (ha : isFalsyStr a = true) (he : isFalsyStr e = true) :
    Client.construct a e b = .error "Gather.Town API key is required" := by
  have hae : jsOrOpt a e = e := by
    cases a with
    | none => rfl
    | some s =>
      have hs : s = "" := by simpa [isFalsyStr] using ha
      simp [jsOrOpt, hs]
  simp [Client.construct, hae, he]

/-- Witness for `construct_fails_without_key` at key `""` and unset
environment. -/
theorem construct_fails_without_key_check :
    isFalsyStr (some "") = true ∧ isFalsyStr none = true ∧
    Client.construct (some "") none none
      = .error "Gather.Town API key is required" :=
  ⟨by decide, by decide,
    construct_fails_without_key (some "") none none (by decide) (by decide)⟩

/-- C8: every operation returns the client state unchanged — the
configuration (`apiKey`, `baseUrl`, `retryConfig`) is read-only after
construction, on every input and every outcome. -/
theorem client_config_readonly :
    (∀ (c : Client) (e : String) (o : RequestOptions)
        (outs : List AttemptOutcome), (c.makeRequest e o outs).2 = c)
    ∧ (∀ (c : Client) (sc : String) (outs : List AttemptOutcome),
        (c.createSpace sc outs).2 = c)
    ∧ (∀ (c : Client) (sid : String) (outs : List AttemptOutcome),
        (c.getSpace sid outs).2 = c)
    ∧ (∀ (c : Client) (sid u : String) (outs : List AttemptOutcome),
        (c.updateSpace sid u outs).2 = c)
    ∧ (∀ (c : Client) (sid : String) (gv : GuestValue)
        (outs : List AttemptOutcome), (c.addGuest sid gv outs).2 = c)
    ∧ (∀ (c : Client) (sid : String) (outs : List AttemptOutcome),
        (c.getGuestList sid outs).2 = c)
    ∧ (∀ (c : Client) (sid gid u : String) (outs : List AttemptOutcome),
        (c.updateGuest sid gid u outs).2 = c)
    ∧ (∀ (c : Client) (sid gid : String) (outs : List AttemptOutcome),
        (c.removeGuest sid gid outs).2 = c)
    ∧ (∀ (c : Client) (ic : String) (outs : List AttemptOutcome),
        (c.sendInvitation ic outs).2 = c)
    ∧ (∀ (c : Client) (wc : String) (outs : List AttemptOutcome),
        (c.createWebhook wc outs).2 = c) :=
  ⟨fun _ _ _ _ => rfl, fun _ _ _ => rfl, fun _ _ _ => rfl,
    fun _ _ _ _ => rfl, fun _ _ _ _ => rfl, fun _ _ _ => rfl,
    fun _ _ _ _ _ => rfl, fun _ _ _ _ => rfl, fun _ _ _ => rfl,
    fun _ _ _ => rfl⟩

/-- C10: the POST body `addGuest` sends always has `sendInvitation = true`
and a `guests` field that is an array: an array argument passes through
unchanged and a non-array argument is wrapped into a one-element array. -/
theorem addGuest_body_shape :
    (∀ gs, (addGuestBody (.array gs)).guests = gs)
    ∧ (∀ g, (addGuestBody (.single g)).guests = [g])
    ∧ (∀ gv, (addGuestBody gv).sendInvitation = true)
    ∧ (∀ gv, addGuestOptions gv
        = ⟨some "POST", some (.guestPayload (addGuestBody gv))⟩) := by
  refine ⟨fun _ => rfl, fun _ => rfl, fun gv => ?_, fun _ => rfl⟩
  cases gv <;> rfl

/-- `lastAttemptMessage` skips the head of a list with a non-empty tail. -/
theorem lastAttemptMessage_cons (o : AttemptOutcome)
    (rest : List AttemptOutcome) (h : rest ≠ []) :
    lastAttemptMessage (o :: rest) = lastAttemptMessage rest := by
  cases rest with
  | nil => exact absurd rfl h
  | cons p ps => rfl

/-- The backoff waits of consecutive retries form the doubling schedule. -/
theorem backoff_schedule_cons (B attempt m : Nat) :
    B * 2 ^ attempt
        :: (List.range m).map (fun k => B * 2 ^ (attempt + 1 + k))
      = (List.range (m + 1)).map (fun k => B * 2 ^ (attempt + k)) := by
  rw [List.range_succ_eq_map, List.map_cons, List.map_map]
  refine congrArg₂ _ (by simp) (List.map_congr_left ?_)
  intro a _
  simp only [Function.comp_apply, Nat.succ_eq_add_one]
  rw [show attempt + 1 + a = attempt + (a + 1) from by omega]

/-- Core of C1: when every available transport outcome is a 500 response and
exactly `maxRetries + 1 - attempt` outcomes remain, the loop started at
`attempt` performs all remaining attempts, waits `backoffMs * 2 ^ k` between
attempt `k` and `k + 1`, and fails with the status (500) and message of the
last attempt. -/
theorem runAttempts_all_500 (cfg : RetryConfig)
    (outcomes : List AttemptOutcome) (attempt : Nat)
    (hlen : attempt + outcomes.length = cfg.maxRetries + 1)
    (hne : outcomes ≠ []) (hall : ∀ o ∈ outcomes, is500 o = true) :
    runAttempts cfg attempt outcomes
      = some (.error (.api 500 (lastAttemptMessage outcomes)),
          outcomes.length,
          (List.range (outcomes.length - 1)).map
            (fun k => cfg.backoffMs * 2 ^ (attempt + k))) := by
  induction outcomes generalizing attempt with
  | nil => exact absurd rfl hne
  | cons o rest ih =>
    obtain ⟨s, b, st, rfl⟩ : ∃ s b st, o = AttemptOutcome.resp s b st := by
      have h := hall o (by simp)
      cases o with
      | netFail m => simp [is500] at h
      | badJson m s => simp [is500] at h
      | resp s b st => exact ⟨s, b, st, rfl⟩
    have hs : s = 500 := by
      have h := hall _ (List.mem_cons_self _ _)
      simpa [is500] using h
    subst hs
    have hres : attemptResult (.resp 500 b st)
        = .error (.api 500 (jsOr b.message st)) := by
      simp [attemptResult]
    by_cases hm : attempt = cfg.maxRetries
    · have hrest : rest = [] := by
        apply List.eq_nil_of_length_eq_zero
        simp at hlen
        omega
      subst hrest
      simp [runAttempts, hres, hm, lastAttemptMessage, attemptMessage]
    · have hrne : rest ≠ [] := by
        intro hr
        subst hr
        simp at hlen
        omega
      have hbeq : (attempt == cfg.maxRetries) = false := by
        simp only [beq_eq_false_iff_ne, ne_eq]
        exact hm
      have hretry : retryCondition (.api 500 (jsOr b.message st)) = true := by
        simp [retryCondition, statusOf]
      have ihr := ih (attempt + 1) (by simp at hlen ⊢; omega) hrne
        (fun o ho => hall o (by simp [ho]))
      rw [show runAttempts cfg attempt
            (AttemptOutcome.resp 500 b st :: rest)
          = match runAttempts cfg (attempt + 1) rest with
            | none => none
            | some (r, n, ds) =>
                some (r, n + 1, cfg.backoffMs * 2 ^ attempt :: ds)
          from by simp [runAttempts, hres, hbeq, hretry]]
      rw [ihr]
      obtain ⟨p, ps, rfl⟩ : ∃ p ps, rest = p :: ps := by
        cases rest with
        | nil => exact absurd rfl hrne
        | cons p ps => exact ⟨p, ps, rfl⟩
      simp only [lastAttemptMessage_cons _ _ hrne, List.length_cons,
        Nat.add_sub_cancel]
      rw [backoff_schedule_cons]

/-- C1: when every attempt yields a 500 response, `makeRequest` performs
exactly `maxRetries` retries (so `maxRetries + 1` attempts in total), waits
`backoffMs * 2 ^ k` milliseconds between attempt `k` and attempt `k + 1`,
and fails with the transient `APIError` carrying the last-seen status (500)
and the last response's message. -/
theorem makeRequest_all_500_exhausts_retries (c : Client) (e : String)
    (opts : RequestOptions) (outcomes : List AttemptOutcome)
    (hlen : outcomes.length = c.retryConfig.maxRetries + 1)
    (hall : ∀ o ∈ outcomes, is500 o = true) :
    (c.makeRequest e opts outcomes).1
      = some (.error (.api 500 (lastAttemptMessage outcomes)),
          c.retryConfig.maxRetries + 1,
          (List.range c.retryConfig.maxRetries).map
            (fun k => c.retryConfig.backoffMs * 2 ^ k)) := by
  have hne : outcomes ≠ [] := by
    intro h
    rw [h] at hlen
    simp at hlen
  have h := runAttempts_all_500 c.retryConfig outcomes 0 (by omega) hne hall
  show runAttempts c.retryConfig 0 outcomes = _
  rw [h, hlen]
  simp

/-- Witness for `makeRequest_all_500_exhausts_retries`: four consecutive 500
responses against the default client (`maxRetries = 3`, `backoffMs = 1000`)
give four attempts, waits of 1000, 2000 and 4000 ms, and a final
`APIError 500`. -/
theorem makeRequest_all_500_exhausts_retries_check :
    (List.replicate 4
        (AttemptOutcome.resp 500 ⟨some "ISE", ""⟩ "Internal Server Error")).length
      = defaultClient.retryConfig.maxRetries + 1
    ∧ (List.replicate 4
        (AttemptOutcome.resp 500 ⟨some "ISE", ""⟩ "Internal Server Error")).all
          is500 = true
    ∧ (defaultClient.makeRequest "/spaces" ⟨none, none⟩
        (List.replicate 4
          (AttemptOutcome.resp 500 ⟨some "ISE", ""⟩ "Internal Server Error"))).1
      = some (.error (.api 500 "ISE"), 4, [1000, 2000, 4000]) := by
  refine ⟨by decide, by decide, ?_⟩
  have h := makeRequest_all_500_exhausts_retries defaultClient "/spaces"
    ⟨none, none⟩
    (List.replicate 4
      (AttemptOutcome.resp 500 ⟨some "ISE", ""⟩ "Internal Server Error"))
    (by decide) (by intro o ho; simpa using List.all_eq_true.mp (by decide) o ho)
  rw [h]
  rfl

/-- Concatenating the chunks in order restores the input array. -/
theorem chunkArray_flatten {α : Type} (arr : List α) (size : Nat)
    (h : 0 < size) : (chunkArray arr size).flatten = arr := by
  induction arr, size using chunkArray.induct with
  | case1 n => simp [chunkArray]
  | case2 a rest => omega
  | case3 a rest s ih =>
    rw [chunkArray]
    simp only [List.flatten_cons, ih (by omega)]
    exact List.take_append_drop _ _

/-- With a positive size, `chunkArray` returns no chunks exactly on the
empty array. -/
theorem chunkArray_eq_nil_iff {α : Type} (arr : List α) (s : Nat) :
    chunkArray arr (s + 1) = [] ↔ arr = [] := by
  cases arr <;> simp [chunkArray]

/-- Every chunk except possibly the last has length exactly `size`. -/
theorem chunkArray_dropLast_length {α : Type} (arr : List α) (size : Nat)
    (h : 0 < size) :
    ∀ c ∈ (chunkArray arr size).dropLast, c.length = size := by
  induction arr, size using chunkArray.induct with
  | case1 n => simp [chunkArray]
  | case2 a rest => omega
  | case3 a rest s ih =>
    rw [chunkArray]
    by_cases hd : (a :: rest).drop (s + 1) = []
    · simp [hd, chunkArray]
    · intro c hc
      have hne : chunkArray ((a :: rest).drop (s + 1)) (s + 1) ≠ [] := by
        intro hcontra
        exact hd ((chunkArray_eq_nil_iff _ s).mp hcontra)
      rw [List.dropLast_cons_of_ne_nil hne] at hc
      rcases List.mem_cons.mp hc with hc | hc
      · subst hc
        have hlen : s + 1 ≤ (a :: rest).length := by
          by_contra hlt
          push_neg at hlt
          exact hd (List.drop_eq_nil_of_le (by omega))
        simp only [List.length_cons] at hlen
        simp [List.length_take]
        omega
      · exact ih (by omega) c hc

/-- With a positive size, no produced chunk is empty. -/
theorem chunkArray_chunk_ne_nil {α : Type} (arr : List α) (size : Nat)
    (h : 0 < size) : ∀ c ∈ chunkArray arr size, c ≠ [] := by
  induction arr, size using chunkArray.induct with
  | case1 n => simp [chunkArray]
  | case2 a rest => omega
  | case3 a rest s ih =>
    rw [chunkArray]
    intro c hc
    rcases List.mem_cons.mp hc with hc | hc
    · subst hc; simp
    · exact ih (by omega) c hc

/-- C9: for every array and every positive chunk size, the chunks of
`chunkArray` concatenate back to the input, every chunk except possibly the
last has length exactly `size`, and no chunk is empty. -/
theorem chunkArray_spec {α : Type} (arr : List α) (size : Nat)
    (h : 0 < size) :
    (chunkArray arr size).flatten = arr
    ∧ ((chunkArray arr size).dropLast.all
        (fun c => c.length == size)) = true
    ∧ ((chunkArray arr size).all (fun c => !c.isEmpty)) = true := by
  refine ⟨chunkArray_flatten arr size h, ?_, ?_⟩
  · rw [List.all_eq_true]
    intro c hc
    simpa using chunkArray_dropLast_length arr size h c hc
  · rw [List.all_eq_true]
    intro c hc
    simpa [List.isEmpty_iff] using chunkArray_chunk_ne_nil arr size h c hc

/-- Witness for `chunkArray_spec`: chunking `[1,2,3,4,5]` with size 2 gives
`[[1,2],[3,4],[5]]`. -/
theorem chunkArray_spec_check :
    0 < 2
    ∧ (chunkArray [1, 2, 3, 4, 5] 2).flatten = [1, 2, 3, 4, 5]
    ∧ ((chunkArray [1, 2, 3, 4, 5] 2).dropLast.all
        (fun c => c.length == 2)) = true
    ∧ ((chunkArray [1, 2, 3, 4, 5] 2).all (fun c => !c.isEmpty)) = true := by
  have h := chunkArray_spec [1, 2, 3, 4, 5] 2 (by decide)
  exact ⟨by decide, h.1, h.2.1, h.2.2⟩

/-- `Math.min` over a non-empty key list yields one of the keys. -/
theorem listMin_mem (a : Nat) (l : List Nat) : listMin (a :: l) ∈ a :: l := by
  induction l generalizing a with
  | nil => simp [listMin]
  | cons b ts ih =>
    rw [show listMin (a :: b :: ts) = min a (listMin (b :: ts)) from rfl]
    rcases Nat.le_total a (listMin (b :: ts)) with h | h
    · simp [Nat.min_eq_left h]
    · rw [Nat.min_eq_right h]
      exact List.mem_cons_of_mem a (ih b)

/-- `Math.min` of a list headed by a lower bound is that head. -/
theorem listMin_cons_of_le (a : Nat) (l : List Nat)
    (h : ∀ x ∈ l, a ≤ x) : listMin (a :: l) = a := by
  cases l with
  | nil => rfl
  | cons b ts =>
    have hx : listMin (b :: ts) ∈ b :: ts := listMin_mem b ts
    rw [show listMin (a :: b :: ts) = min a (listMin (b :: ts)) from rfl]
    exact Nat.min_eq_left (h _ hx)

/-- While the ledger stays under quota and every timestamp lies within one
window of the base time, each `checkLimit` call succeeds, prunes nothing,
and appends its timestamp. -/
theorem runChecks_under (tier : Tier) (base : Nat) (ts : List Nat) :
    ∀ (prev : List Nat),
    prev.length + ts.length ≤ (limits tier).requests →
    List.Pairwise (fun x y => x < y) (prev ++ ts) →
    (∀ x ∈ prev ++ ts, base ≤ x) →
    (∀ x ∈ prev ++ ts, x < base + (limits tier).window * 1000) →
    runChecks tier prev ts = (List.replicate ts.length none, prev ++ ts) := by
  induction ts with
  | nil =>
    intro prev _ _ _ _
    simp [runChecks]
  | cons t ts ih =>
    intro prev hlen hpw hlo hhi
    have hth : t < base + (limits tier).window * 1000 :=
      hhi t (by simp)
    have hkeep : ∀ u ∈ prev,
        (! decide (u < t - (limits tier).window * 1000)) = true := by
      intro u hu
      have hbu : base ≤ u := hlo u (by simp [hu])
      simp only [Bool.not_eq_eq_eq_not, Bool.not_true, decide_eq_false_iff_not]
      omega
    have hprune : prev.filter
        (fun u => ! decide (u < t - (limits tier).window * 1000)) = prev :=
      List.filter_eq_self.mpr hkeep
    have hsize : ¬ (limits tier).requests ≤ prev.length := by
      simp only [List.length_cons] at hlen
      omega
    have htnotin : t ∉ prev := by
      intro hmem
      have := (List.pairwise_append.mp hpw).2.2 t hmem t (by simp)
      omega
    have hstep : checkLimit prev tier t = ⟨none, prev ++ [t]⟩ := by
      simp [checkLimit, hprune, hsize, mapSet, htnotin]
    have hassoc : (prev ++ [t]) ++ ts = prev ++ t :: ts := by simp
    have ihr := ih (prev ++ [t])
      (by simp only [List.length_append, List.length_cons,
            List.length_nil] at hlen ⊢; omega)
      (by rw [hassoc]; exact hpw)
      (by rw [hassoc]; exact hlo)
      (by rw [hassoc]; exact hhi)
    simp only [runChecks, hstep, ihr]
    simp [List.replicate_succ]

/-- A sequence of checks splits at any point, threading the ledger. -/
theorem runChecks_append (tier : Tier) (us ts : List Nat) :
    ∀ (prev : List Nat),
    runChecks tier prev (ts ++ us) =
      ((runChecks tier prev ts).1
          ++ (runChecks tier (runChecks tier prev ts).2 us).1,
       (runChecks tier (runChecks tier prev ts).2 us).2) := by
  induction ts with
  | nil => intro prev; simp [runChecks]
  | cons t ts ih => intro prev; simp [runChecks, ih]

/-- A `checkLimit` call against a ledger already at quota, whose entries all
lie within the window, throws with wait time `oldest + window - now`, prunes
nothing, and does not record the current timestamp. -/
theorem checkLimit_at_quota (tier : Tier) (t0 : Nat) (mid : List Nat)
    (tN : Nat) (hlen : mid.length + 1 = (limits tier).requests)
    (hlo : ∀ x ∈ t0 :: mid, t0 ≤ x)
    (hhi : tN < t0 + (limits tier).window * 1000) :
    checkLimit (t0 :: mid) tier tN
      = ⟨some (t0 + (limits tier).window * 1000 - tN), t0 :: mid⟩ := by
  have hkeep : ∀ u ∈ t0 :: mid,
      (! decide (u < tN - (limits tier).window * 1000)) = true := by
    intro u hu
    have := hlo u hu
    simp only [Bool.not_eq_eq_eq_not, Bool.not_true, decide_eq_false_iff_not]
    omega
  have hprune : (t0 :: mid).filter
      (fun u => ! decide (u < tN - (limits tier).window * 1000)) = t0 :: mid :=
    List.filter_eq_self.mpr hkeep
  have hmin : listMin (t0 :: mid) = t0 :=
    listMin_cons_of_le t0 mid (fun x hx => hlo x (by simp [hx]))
  have hsize : (limits tier).requests ≤ mid.length + 1 := by omega
  simp [checkLimit, hprune, hsize, hmin]

/-- C5: for a tier with quota `N = requests` per rolling window
`W = window * 1000` ms, a run of `N + 1` `checkLimit` calls at strictly
increasing timestamps all within `W` of the first sees the first `N` calls
succeed and the `(N+1)`-th fail with a `RateLimitError` carrying the wait
`t0 + W - tN` until the oldest in-window entry expires; the failing call
records nothing (the ledger stays at the `N` recorded timestamps, pruning
included); and once more than `W` has elapsed since the oldest recorded
entry, a subsequent check succeeds. -/
theorem rate_ledger_quota (tier : Tier) (t0 : Nat) (mid : List Nat)
    (tN tnext : Nat)
    (hlen : mid.length + 1 = (limits tier).requests)
    (hpw : List.Pairwise (fun x y => x < y) (t0 :: mid ++ [tN]))
    (hwin : ∀ x ∈ t0 :: mid ++ [tN],
        x < t0 + (limits tier).window * 1000)
    (hnext : t0 + (limits tier).window * 1000 < tnext) :
    (runChecks tier [] (t0 :: mid ++ [tN])).1
        = List.replicate (limits tier).requests none
          ++ [some (t0 + (limits tier).window * 1000 - tN)]
    ∧ (runChecks tier [] (t0 :: mid ++ [tN])).2 = t0 :: mid
    ∧ (checkLimit (t0 :: mid) tier tnext).err = none := by
  have hsplit : t0 :: mid ++ [tN] = (t0 :: mid) ++ [tN] := rfl
  have hlo : ∀ x ∈ t0 :: mid, t0 ≤ x := by
    intro x hx
    rcases List.mem_cons.mp hx with hx | hx
    · omega
    · have := (List.pairwise_cons.mp hpw).1 x (by simp [hx])
      omega
  have hfirst : runChecks tier [] (t0 :: mid)
      = (List.replicate (t0 :: mid).length none, [] ++ (t0 :: mid)) := by
    apply runChecks_under tier t0 (t0 :: mid) []
    · simpa using Nat.le_of_eq (by simpa using hlen)
    · simp only [List.nil_append]
      exact hpw.sublist (by simp)
    · simpa using hlo
    · intro x hx
      exact hwin x (by rcases List.mem_cons.mp hx with h | h <;> simp [h])
  have hfail : checkLimit (t0 :: mid) tier tN
      = ⟨some (t0 + (limits tier).window * 1000 - tN), t0 :: mid⟩ :=
    checkLimit_at_quota tier t0 mid tN hlen hlo (hwin tN (by simp))
  have happ := runChecks_append tier [tN] (t0 :: mid) []
  rw [hsplit, happ, hfirst]
  simp only [List.nil_append]
  have hone : runChecks tier (t0 :: mid) [tN]
      = ([some (t0 + (limits tier).window * 1000 - tN)], t0 :: mid) := by
    simp [runChecks, hfail]
  rw [hone]
  refine ⟨by simp [hlen], rfl, ?_⟩
  have hdrop : (! decide (t0 < tnext - (limits tier).window * 1000)) = false := by
    simp only [Bool.not_eq_false', decide_eq_true_eq]
    omega
  have hlenle : ((t0 :: mid).filter
      (fun u => ! decide (u < tnext - (limits tier).window * 1000))).length
        ≤ mid.length := by
    rw [List.filter_cons, hdrop]
    simp
    exact List.length_filter_le _ mid
  have hnotfull : ¬ (limits tier).requests ≤ ((t0 :: mid).filter
      (fun u => ! decide (u < tnext - (limits tier).window * 1000))).length := by
    omega
  simp [checkLimit, hnotfull]

/-- Witness for `rate_ledger_quota`: 101 checks against the `burst` tier
(100 requests per 60 s) at times 0, 1, ..., 100 ms — the 101st fails with an
estimated wait of 59900 ms and records nothing; a check at 60001 ms
succeeds. -/
theorem rate_ledger_quota_check :
    ((List.range 99).map (fun k => k + 1)).length + 1
        = (limits Tier.burst).requests
    ∧ List.Pairwise (fun x y => x < y)
        (0 :: (List.range 99).map (fun k => k + 1) ++ [100])
    ∧ ((0 :: (List.range 99).map (fun k => k + 1) ++ [100]).all
        (fun x => decide (x < 0 + (limits Tier.burst).window * 1000))) = true
    ∧ 0 + (limits Tier.burst).window * 1000 < 60001
    ∧ (runChecks Tier.burst []
        (0 :: (List.range 99).map (fun k => k + 1) ++ [100])).1
      = List.replicate 100 none ++ [some 59900]
    ∧ (runChecks Tier.burst []
        (0 :: (List.range 99).map (fun k => k + 1) ++ [100])).2
      = 0 :: (List.range 99).map (fun k => k + 1)
    ∧ (checkLimit (0 :: (List.range 99).map (fun k => k + 1))
        Tier.burst 60001).err = none := by
  have h := rate_ledger_quota Tier.burst 0
    ((List.range 99).map (fun k => k + 1)) 100 60001
    (by decide) (by decide) (by decide) (by decide)
  refine ⟨by decide, by decide, by decide, by decide, ?_, h.2.1, h.2.2⟩
  rw [h.1]
  rfl
